import Mathlib

/- Shallow embedding of the luxCompute marketplace core (src/main.go):
   the agents ledger, the rent transfer handler, the admin read queries and
   one cycle of the blockchain deposit watcher.  SQL tables are modelled as
   association lists keyed by their unique column; every SQL statement the
   code issues becomes one pure function on that state. -/

namespace LuxCompute


/-- One row of the agents table (initSchema, main.go lines 84-89):
balance BIGINT DEFAULT 0, banned BOOLEAN DEFAULT FALSE; the wallet TEXT
UNIQUE column is the association-list key. -/
structure AgentRow where
  balance : Int
  banned : Bool
  deriving DecidableEq

/-- The agents table, keyed by wallet. -/
abbrev Agents := List (String × AgentRow)

/-- One row of the providers table (initSchema, main.go lines 90-97). -/
structure ProviderRow where
  node_id : String
  wallet : String
  gpu_model : String
  status : String
  price_wei : Int
  deriving DecidableEq

/-- One row of the a2a_jobs table (initSchema, main.go lines 98-105), the
TransferRecord log of the design. -/
structure JobRow where
  from_wallet : String
  to_wallet : String
  fee_wei : Int
  amount_wei : Int
  deriving DecidableEq

/-- The database state the handlers touch: agents, providers, a2a_jobs. -/
structure MarketState where
  agents : Agents
  providers : List ProviderRow
  jobs : List JobRow
  deriving DecidableEq

/-- SELECT balance FROM agents WHERE wallet = w (main.go line 188): a
missing row leaves the scanned Go variable at its zero value, so an
unknown wallet reads as balance 0. -/
def getBalance : Agents → String → Int
  | [], _ => 0
  | (w1, row) :: rest, w => if w1 = w then row.balance else getBalance rest w

/-- INSERT INTO agents (wallet, balance) VALUES (w, v) ON CONFLICT (wallet)
DO UPDATE SET balance = agents.balance + v (main.go lines 145-147 and
216-218); a freshly created row takes the schema default banned = FALSE. -/
def upsertAdd : Agents → String → Int → Agents
  | [], w, v => [(w, ⟨v, false⟩)]
  | (w1, row) :: rest, w, v =>
      if w1 = w then (w1, ⟨row.balance + v, row.banned⟩) :: rest
      else (w1, row) :: upsertAdd rest w v

/-- UPDATE agents SET balance = balance - amt WHERE wallet = w (main.go
line 212); wallet is UNIQUE so at most one row matches, and the update is
a no-op when none does.  The subtraction is unconditional: nothing in the
statement or the schema refuses a result below zero. -/
def debit : Agents → String → Int → Agents
  | [], _, _ => []
  | (w1, row) :: rest, w, amt =>
      if w1 = w then (w1, ⟨row.balance - amt, row.banned⟩) :: rest
      else (w1, row) :: debit rest w amt

/-- SELECT price_wei FROM providers WHERE node_id = pid (main.go line 193):
QueryRow yields the first matching row; when no row matches, the ignored
Scan error leaves the scanned value at 0.  The status column is not part
of the query. -/
def lookupPrice : List ProviderRow → String → Int
  | [], _ => 0
  | p :: rest, pid => if p.node_id = pid then p.price_wei else lookupPrice rest pid

/-- feeAmount.Div(feeAmount, big.NewInt(100)) (main.go lines 201-202):
Euclidean integer division by 100, the semantics of big.Int Div. -/
def feeAmount (priceWei : Int) : Int :=
  priceWei / 100

/-- providerNet := priceWei - feeAmount.Int64() (main.go line 215). -/
def providerNet (priceWei : Int) : Int :=
  priceWei - feeAmount priceWei

/-- Outcome of the rent handler: the two HTTP 400 insufficiency responses
(INSUFFICIENT CREDITS at main.go line 189, INSUFFICIENT FUNDS FOR GPU at
line 196) and the JSON success response carrying the gpu id and the wallet
paid (line 231). -/
inductive RentResult where
  | insufficientCredits
  | insufficientFunds
  | rented (gpu : String) (paidTo : String)
  deriving DecidableEq

/-- The write phase of handleRent (main.go lines 209-228): debit the renter
by the price, upsert-credit the caller-supplied provider wallet with the
net amount, append one a2a_jobs row carrying the fee and the gross price. -/
def rentApply (s : MarketState) (renterWallet providerWallet : String)
    (priceWei : Int) : MarketState :=
  ⟨upsertAdd (debit s.agents renterWallet priceWei) providerWallet
      (providerNet priceWei),
   s.providers,
   s.jobs ++ [⟨renterWallet, providerWallet, feeAmount priceWei, priceWei⟩]⟩

/-- The read-and-check phase of handleRent (main.go lines 186-198): read
the renter balance, reject a zero balance, read the price for the node id,
reject balance below price; on success report the price that was read.
Each SQL statement is individually atomic, but no lock or transaction
spans this phase and the later write phase, so other handlers can run
between them. -/
def rentCheck (s : MarketState) (renterWallet providerId : String) : Option Int :=
  if getBalance s.agents renterWallet = 0 then none
  else if getBalance s.agents renterWallet < lookupPrice s.providers providerId
    then none
  else some (lookupPrice s.providers providerId)

/-- handleRent (main.go lines 176-232) run sequentially: the check phase
followed by the write phase.  The wallet paid is the provider_wallet field
of the request body, and the provider status is never consulted. -/
def handleRent (s : MarketState) (renterWallet providerId providerWallet : String) :
    MarketState × RentResult :=
  if getBalance s.agents renterWallet = 0 then (s, RentResult.insufficientCredits)
  else if getBalance s.agents renterWallet < lookupPrice s.providers providerId
    then (s, RentResult.insufficientFunds)
  else (rentApply s renterWallet providerWallet
          (lookupPrice s.providers providerId),
        RentResult.rented providerId providerWallet)

/-- GET /api/balance (main.go lines 234-239): the stored balance, 0 for an
unknown wallet. -/
def checkRealBalance (s : MarketState) (wallet : String) : Int :=
  getBalance s.agents wallet

/-- GET /api/providers (main.go lines 158-159): SELECT ... FROM providers
WHERE status equals the literal ONLINE, an exact case-sensitive match. -/
def getProviders (providers : List ProviderRow) : List ProviderRow :=
  providers.filter (fun p => p.status == "ONLINE")

/-- GET /api/admin/overview (main.go lines 243-255): the agents row count,
the count of providers whose status equals the literal ONLINE, and the
sum of fee_wei over a2a_jobs with 0 for the empty table. -/
def handleAdminOverview (s : MarketState) : Nat × Nat × Int :=
  (s.agents.length,
   (s.providers.filter (fun p => p.status == "ONLINE")).length,
   (s.jobs.map (fun j => j.fee_wei)).sum)

/-- GET /api/admin/a2a-tx (main.go lines 257-272): the last 20 a2a_jobs
rows, most recent first. -/
def handleA2ATransactions (s : MarketState) : List JobRow :=
  s.jobs.reverse.take 20

/-- One chain transaction as the watcher reads it: optional destination
address, derived sender, transferred value, transaction hash. -/
structure ChainTx where
  toAddr : Option String
  fromAddr : String
  value : Int
  hash : String
  deriving DecidableEq

/-- The qualifying test of main.go line 142: tx.To() is non-nil, its hex
equals the configured receiving wallet, and tx.Value() is strictly
positive. -/
def qualifying (owner : String) (tx : ChainTx) : Bool :=
  match tx.toAddr with
  | some dest => dest == owner && decide (0 < tx.value)
  | none => false

/-- The deposit credit the watcher issues for one qualifying transaction
(main.go lines 145-147).  The chain transaction hash, the natural
idempotency token of the design, is passed here to mirror the Credit
operation, but the SQL the code actually runs never consults, records or
deduplicates it: the credit is a plain balance-adding upsert. -/
def credit (agents : Agents) (sender : String) (amount : Int)
    (txHash : String) : Agents :=
  upsertAdd agents sender amount

/-- Processing of a single transaction inside the block scan. -/
def monitorTx (owner : String) (agents : Agents) (tx : ChainTx) : Agents :=
  if qualifying owner tx then credit agents tx.fromAddr tx.value tx.hash
  else agents

/-- Scan of one block: the transaction loop of main.go lines 141-150. -/
def monitorBlock (owner : String) (agents : Agents) (txs : List ChainTx) : Agents :=
  txs.foldl (monitorTx owner) agents

/-- The block loop of main.go lines 139-152, counted by the number of
heights still to process; returns the agents table and the cursor value
(lastBlock) after the loop. -/
def monitorRange (owner : String) (blocks : Int → List ChainTx) :
    Agents → Int → Nat → Agents × Int
  | agents, lastBlock, 0 => (agents, lastBlock)
  | agents, lastBlock, n + 1 =>
      monitorRange owner blocks
        (monitorBlock owner agents (blocks (lastBlock + 1))) (lastBlock + 1) n

/-- One cycle of monitorBlockchain with cursor lastBlock and chain head
current: process every height b with lastBlock < b and b at most current,
in increasing order, setting lastBlock = b after each block.  Block
fetches are assumed to succeed, matching the error-ignoring code. -/
def monitorCycle (owner : String) (blocks : Int → List ChainTx)
    (agents : Agents) (lastBlock current : Int) : Agents × Int :=
  monitorRange owner blocks agents lastBlock (current - lastBlock).toNat

/-- Sum of the values of the qualifying transactions of one block whose
derived sender is the wallet w. -/
def blockCredit (owner : String) (txs : List ChainTx) (w : String) : Int :=
  ((txs.filter (fun tx => qualifying owner tx && tx.fromAddr == w)).map
    (fun tx => tx.value)).sum

/-- Sum of the qualifying deposit values sent by wallet w over the block
range cursor+1 .. head. -/
def rangeCredit (owner : String) (blocks : Int → List ChainTx)
    (cursor head : Int) (w : String) : Int :=
  ((List.range (head - cursor).toNat).map
    (fun (i : Nat) => blockCredit owner (blocks (cursor + 1 + (i : Int))) w)).sum

/-- Projection of the agents table to wallet and balance; two tables with
the same projection differ at most in their banned flags. -/
def balancesOf (agents : Agents) : List (String × Int) :=
  agents.map (fun p => (p.1, p.2.balance))

/-- Lookup of the banned flag of a wallet; none when the wallet has no row. -/
def getBanned : Agents → String → Option Bool
  | [], _ => none
  | (w1, row) :: rest, w => if w1 = w then some row.banned else getBanned rest w

/-- Recognizes the two insufficiency errors of the rent handler. -/
def isInsufficient : RentResult → Bool
  | RentResult.insufficientCredits => true
  | RentResult.insufficientFunds => true
  | RentResult.rented _ _ => false

/-- A renter holding exactly one unit price of an online offer. -/
def raceState : MarketState :=
  ⟨[("0xRenter", ⟨100, false⟩)],
   [⟨"NODE_A", "0xProviderCatalog", "NVIDIA A100", "ONLINE", 100⟩], []⟩

/-- A second renter state with balance equal to one unit price. -/
def raceState2 : MarketState :=
  ⟨[("0xRenter", ⟨50, false⟩)],
   [⟨"NODE_B", "0xProviderB", "RTX 3090", "ONLINE", 50⟩], []⟩

/-- A funded renter and a catalog offer whose payout wallet differs from
what a caller will pass. -/
def cexState2 : MarketState :=
  ⟨[("0xRenter", ⟨100, false⟩)],
   [⟨"NODE_ALPHA", "0xCatalogPayout", "NVIDIA A100", "ONLINE", 100⟩], []⟩

/-- A funded renter facing a catalog without the requested node id. -/
def cexState3 : MarketState :=
  ⟨[("0xRenterC", ⟨7, false⟩)],
   [⟨"NODE_A", "0xProviderA", "NVIDIA A100", "ONLINE", 100⟩], []⟩

/-- An online offer priced at 0 and a renter with no account row. -/
def cexState7 : MarketState :=
  ⟨[], [⟨"NODE_Z", "0xProviderZ", "H100", "ONLINE", 0⟩], []⟩

/-- Small funded state used to instantiate the amended C2 theorem. -/
def witState2 : MarketState :=
  ⟨[("0xR", ⟨10, false⟩)], [⟨"NODE_W", "0xPW", "H100", "ONLINE", 10⟩], []⟩

/-- State used to instantiate the amended C3 theorem. -/
def witState3 : MarketState :=
  ⟨[("0xR", ⟨7, false⟩)], [], []⟩

/-- State used to instantiate the amended C7 theorem. -/
def witState7 : MarketState :=
  ⟨[("0xR", ⟨3, false⟩)], [⟨"NODE_P", "0xQ", "H100", "ONLINE", 10⟩], []⟩

/-- A provider row carrying the schema default status value (initSchema:
status TEXT defaulting to lowercase online). -/
def defaultStatusRow : ProviderRow := ⟨"NODE_X", "0xWx", "RTX 3090", "online", 5⟩

/-- The first provider row seeded by seedProviders (main.go lines 122-123),
whose status is the uppercase ONLINE. -/
def seededStatusRow : ProviderRow :=
  ⟨"NODE_ALPHA", "0xProvider1...", "NVIDIA A100", "ONLINE", 10000000000000000⟩

/-- A one-deposit chain used to instantiate the watcher theorem. -/
def witBlocks : Int → List ChainTx :=
  fun h => if h = 5 then [⟨some "0xOwner", "0xSender", 7, "0xHash1"⟩] else []

/-- Two agents tables equal except for the banned flag of wallet 0xA. -/
def bannedA1 : Agents := [("0xA", ⟨5, false⟩)]

/-- Companion of bannedA1 with the banned flag set. -/
def bannedA2 : Agents := [("0xA", ⟨5, true⟩)]

/-- The state witState2 reaches after a successful rent call paying 0xPayee. -/
def wit2After : MarketState :=
  ⟨[("0xR", ⟨0, false⟩), ("0xPayee", ⟨10, false⟩)],
   [⟨"NODE_W", "0xPW", "H100", "ONLINE", 10⟩],
   [⟨"0xR", "0xPayee", 0, 10⟩]⟩

theorem getBalance_upsertAdd (a : Agents) (w2 : String) (v : Int) (w : String) :
    getBalance (upsertAdd a w2 v) w
      = getBalance a w + (if w2 = w then v else 0) := by
  induction a with
  | nil =>
      by_cases h : w2 = w <;> simp [upsertAdd, getBalance, h]
  | cons hd tl ih =>
      obtain ⟨w1, row⟩ := hd
      by_cases h1 : w1 = w2
      · simp only [upsertAdd, if_pos h1]
        by_cases h2 : w1 = w
        · have h3 : w2 = w := h1 ▸ h2
          simp [getBalance, h2, h3]
        · have h3 : ¬ w2 = w := fun hh => h2 (h1 ▸ hh.symm ▸ rfl)
          simp [getBalance, h2, h3]
      · simp only [upsertAdd, if_neg h1]
        by_cases h2 : w1 = w
        · have h3 : ¬ w2 = w := fun hh => h1 (h2.trans hh.symm)
          simp [getBalance, h2, h3]
        · simp [getBalance, h2, ih]

theorem getBalance_monitorTx (owner : String) (a : Agents) (tx : ChainTx) (w : String) :
    getBalance (monitorTx owner a tx) w
      = getBalance a w
        + (if qualifying owner tx && tx.fromAddr == w then tx.value else 0) := by
  unfold monitorTx credit
  by_cases hq : qualifying owner tx
  · rw [if_pos hq, getBalance_upsertAdd]
    by_cases hw : tx.fromAddr = w
    · simp [hq, hw]
    · simp [hq, hw]
  · simp [hq]

theorem getBalance_monitorBlock (owner : String) (txs : List ChainTx) :
    ∀ (a : Agents) (w : String),
      getBalance (monitorBlock owner a txs) w
        = getBalance a w + blockCredit owner txs w := by
  induction txs with
  | nil => intro a w; simp [monitorBlock, blockCredit]
  | cons tx rest ih =>
      intro a w
      have h1 : monitorBlock owner a (tx :: rest)
          = monitorBlock owner (monitorTx owner a tx) rest := rfl
      rw [h1, ih, getBalance_monitorTx]
      by_cases hc : (qualifying owner tx && tx.fromAddr == w) = true
      · simp only [blockCredit, List.filter_cons, hc, if_pos, List.map_cons,
          List.sum_cons]
        ring
      · simp only [blockCredit, List.filter_cons, hc, Bool.false_eq_true,
          if_false]
        ring

theorem monitorRange_spec (owner : String) (blocks : Int → List ChainTx) :
    ∀ (n : Nat) (a : Agents) (lastBlock : Int),
      (monitorRange owner blocks a lastBlock n).2 = lastBlock + n
      ∧ ∀ w, getBalance (monitorRange owner blocks a lastBlock n).1 w
          = getBalance a w
            + ((List.range n).map
                (fun (i : Nat) =>
                  blockCredit owner (blocks (lastBlock + 1 + (i : Int))) w)).sum := by
  intro n
  induction n with
  | zero =>
      intro a lb
      refine ⟨by simp [monitorRange], ?_⟩
      intro w
      simp [monitorRange]
  | succ n ih =>
      intro a lb
      have hstep : monitorRange owner blocks a lb (n + 1)
          = monitorRange owner blocks
              (monitorBlock owner a (blocks (lb + 1))) (lb + 1) n := rfl
      constructor
      · rw [hstep, (ih _ _).1]
        push_cast
        ring
      · intro w
        rw [hstep, (ih _ _).2 w, getBalance_monitorBlock]
        rw [List.range_succ_eq_map, List.map_cons, List.sum_cons, List.map_map]
        have hcong : (List.range n).map
              ((fun (i : Nat) =>
                  blockCredit owner (blocks (lb + 1 + (i : Int))) w) ∘ Nat.succ)
            = (List.range n).map
              (fun (i : Nat) =>
                  blockCredit owner (blocks (lb + 1 + 1 + (i : Int))) w) := by
          apply List.map_congr_left
          intro i _
          simp only [Function.comp]
          congr 2
          push_cast
          ring
        rw [hcong]
        have hz : lb + 1 + ((0 : Nat) : Int) = lb + 1 := by push_cast; ring
        rw [hz]
        ring

theorem getBalance_debit_ne (a : Agents) (w2 : String) (amt : Int) (w : String)
    (h : w2 ≠ w) : getBalance (debit a w2 amt) w = getBalance a w := by
  induction a with
  | nil => simp [debit]
  | cons hd tl ih =>
      obtain ⟨w1, row⟩ := hd
      by_cases h1 : w1 = w2
      · have h2 : ¬ w1 = w := fun hh => h (h1 ▸ hh)
        simp only [debit, if_pos h1]
        simp [getBalance, h2]
      · simp only [debit, if_neg h1]
        by_cases h2 : w1 = w <;> simp [getBalance, h2, ih]

theorem getBalance_debit_zero (a : Agents) (w2 w : String) :
    getBalance (debit a w2 0) w = getBalance a w := by
  induction a with
  | nil => simp [debit]
  | cons hd tl ih =>
      obtain ⟨w1, row⟩ := hd
      by_cases h1 : w1 = w2
      · simp only [debit, if_pos h1]
        by_cases h2 : w1 = w <;> simp [getBalance, h2]
      · simp only [debit, if_neg h1]
        by_cases h2 : w1 = w <;> simp [getBalance, h2, ih]

theorem lookupPrice_eq_zero_of_not_found (ps : List ProviderRow) (pid : String)
    (h : ∀ p ∈ ps, p.node_id ≠ pid) : lookupPrice ps pid = 0 := by
  induction ps with
  | nil => rfl
  | cons p rest ih =>
      have hp : p.node_id ≠ pid := h p (List.mem_cons_self p rest)
      simp only [lookupPrice, if_neg hp]
      exact ih (fun q hq => h q (List.mem_cons_of_mem p hq))

theorem getBalance_eq_of_balancesOf :
    ∀ (a1 a2 : Agents), balancesOf a1 = balancesOf a2 →
      ∀ w, getBalance a1 w = getBalance a2 w := by
  intro a1
  induction a1 with
  | nil =>
      intro a2 h w
      cases a2 with
      | nil => rfl
      | cons hd tl => simp [balancesOf] at h
  | cons hd tl ih =>
      intro a2 h w
      cases a2 with
      | nil => simp [balancesOf] at h
      | cons hd2 tl2 =>
          obtain ⟨w1, r1⟩ := hd
          obtain ⟨w2, r2⟩ := hd2
          simp only [balancesOf, List.map_cons, List.cons.injEq, Prod.mk.injEq] at h
          obtain ⟨⟨hw, hbal⟩, htl⟩ := h
          subst hw
          by_cases h2 : w1 = w
          · simp [getBalance, h2, hbal]
          · simp only [getBalance, if_neg h2]
            exact ih tl2 htl w

theorem balancesOf_upsertAdd_congr :
    ∀ (a1 a2 : Agents), balancesOf a1 = balancesOf a2 → ∀ (w : String) (v : Int),
      balancesOf (upsertAdd a1 w v) = balancesOf (upsertAdd a2 w v) := by
  intro a1
  induction a1 with
  | nil =>
      intro a2 h w v
      cases a2 with
      | nil => rfl
      | cons hd tl => simp [balancesOf] at h
  | cons hd tl ih =>
      intro a2 h w v
      cases a2 with
      | nil => simp [balancesOf] at h
      | cons hd2 tl2 =>
          obtain ⟨w1, r1⟩ := hd
          obtain ⟨w2, r2⟩ := hd2
          simp only [balancesOf, List.map_cons, List.cons.injEq, Prod.mk.injEq] at h
          obtain ⟨⟨hw, hbal⟩, htl⟩ := h
          subst hw
          by_cases h2 : w1 = w
          · simp [upsertAdd, h2, balancesOf, hbal, htl]
          · simp only [upsertAdd, if_neg h2, balancesOf, List.map_cons,
              List.cons.injEq]
            refine ⟨by rw [hbal], ?_⟩
            exact ih tl2 htl w v

theorem balancesOf_debit_congr :
    ∀ (a1 a2 : Agents), balancesOf a1 = balancesOf a2 → ∀ (w : String) (amt : Int),
      balancesOf (debit a1 w amt) = balancesOf (debit a2 w amt) := by
  intro a1
  induction a1 with
  | nil =>
      intro a2 h w amt
      cases a2 with
      | nil => rfl
      | cons hd tl => simp [balancesOf] at h
  | cons hd tl ih =>
      intro a2 h w amt
      cases a2 with
      | nil => simp [balancesOf] at h
      | cons hd2 tl2 =>
          obtain ⟨w1, r1⟩ := hd
          obtain ⟨w2, r2⟩ := hd2
          simp only [balancesOf, List.map_cons, List.cons.injEq, Prod.mk.injEq] at h
          obtain ⟨⟨hw, hbal⟩, htl⟩ := h
          subst hw
          by_cases h2 : w1 = w
          · simp [debit, h2, balancesOf, hbal, htl]
          · simp only [debit, if_neg h2, balancesOf, List.map_cons,
              List.cons.injEq]
            refine ⟨by rw [hbal], ?_⟩
            exact ih tl2 htl w amt

theorem getBanned_debit (a : Agents) (w2 : String) (amt : Int) (w : String) :
    getBanned (debit a w2 amt) w = getBanned a w := by
  induction a with
  | nil => simp [debit]
  | cons hd tl ih =>
      obtain ⟨w1, row⟩ := hd
      by_cases h1 : w1 = w2
      · simp only [debit, if_pos h1]
        by_cases h2 : w1 = w <;> simp [getBanned, h2]
      · simp only [debit, if_neg h1]
        by_cases h2 : w1 = w <;> simp [getBanned, h2, ih]

theorem getBanned_upsertAdd_of_present (a : Agents) (w2 : String) (v : Int)
    (w : String) (h : getBanned a w ≠ none) :
    getBanned (upsertAdd a w2 v) w = getBanned a w := by
  induction a with
  | nil => simp [getBanned] at h
  | cons hd tl ih =>
      obtain ⟨w1, row⟩ := hd
      by_cases h1 : w1 = w2
      · simp only [upsertAdd, if_pos h1]
        by_cases h2 : w1 = w <;> simp [getBanned, h2]
      · simp only [upsertAdd, if_neg h1]
        by_cases h2 : w1 = w
        · simp [getBanned, h2]
        · simp only [getBanned, if_neg h2] at h ⊢
          exact ih h

theorem length_eq_of_balancesOf (a1 a2 : Agents)
    (h : balancesOf a1 = balancesOf a2) : a1.length = a2.length := by
  have hl := congrArg List.length h
  simpa [balancesOf] using hl

/-- Claim C1, code bug evidence: the watcher credit has no idempotency
mechanism.  The chain transaction hash argument is ignored entirely, so
any two tokens yield the same state, and re-applying the deposit of
amount 5 from sender 0xSender under the very same hash 0xTxHash adds the
amount again, giving balance 10 instead of the claimed no-op with the
second application reported as not applied. -/
theorem credit_ignores_idempotency_token :
    (∀ (a : Agents) (sender : String) (v : Int) (t1 t2 : String),
        credit a sender v t1 = credit a sender v t2)
    ∧ getBalance
        (credit (credit [] "0xSender" 5 "0xTxHash") "0xSender" 5 "0xTxHash")
        "0xSender" = 10 :=
  ⟨fun _ _ _ _ _ => rfl, by decide⟩

/-- Claim C2 counterexample: with a catalog offer NODE_ALPHA whose payout
wallet is 0xCatalogPayout, a rent call that supplies 0xAttacker as the
provider_wallet request field succeeds, credits 0xAttacker with the net
amount 99, leaves the catalog payout wallet at balance 0, and records
0xAttacker, not the catalog wallet, in the appended transfer record. -/
theorem rent_ignores_catalog_payout_wallet_cex :
    (handleRent cexState2 "0xRenter" "NODE_ALPHA" "0xAttacker").2
        = RentResult.rented "NODE_ALPHA" "0xAttacker"
    ∧ getBalance (handleRent cexState2 "0xRenter" "NODE_ALPHA" "0xAttacker").1.agents
        "0xAttacker" = 99
    ∧ getBalance (handleRent cexState2 "0xRenter" "NODE_ALPHA" "0xAttacker").1.agents
        "0xCatalogPayout" = 0
    ∧ ((handleRent cexState2 "0xRenter" "NODE_ALPHA" "0xAttacker").1.jobs.map
        (fun j => j.to_wallet)) = ["0xAttacker"]
    ∧ (cexState2.providers.map (fun p => p.wallet)) = ["0xCatalogPayout"] :=
  ⟨by decide, by decide, by decide, by decide, by decide⟩

/-- Claim C2 as amended: for every successful Spend, the wallet credited
with provider_net is the provider_wallet field supplied by the caller in
the request body, not a wallet resolved from the catalog, and that same
caller-supplied wallet is the one recorded in the appended transfer
record; the catalog lookup by provider_id contributes only the price. -/
theorem rent_credits_caller_supplied_wallet
    (s : MarketState) (r pid pw gpu paidTo : String) (s2 : MarketState)
    (h : handleRent s r pid pw = (s2, RentResult.rented gpu paidTo))
    (hrw : pw ≠ r) :
    paidTo = pw
    ∧ s2.jobs = s.jobs
        ++ [⟨r, pw, feeAmount (lookupPrice s.providers pid),
             lookupPrice s.providers pid⟩]
    ∧ getBalance s2.agents pw
        = getBalance s.agents pw + providerNet (lookupPrice s.providers pid) := by
  unfold handleRent at h
  by_cases h0 : getBalance s.agents r = 0
  · rw [if_pos h0] at h
    exact absurd (congrArg Prod.snd h) (by simp)
  · rw [if_neg h0] at h
    by_cases hlt : getBalance s.agents r < lookupPrice s.providers pid
    · rw [if_pos hlt] at h
      exact absurd (congrArg Prod.snd h) (by simp)
    · rw [if_neg hlt] at h
      have h1 : rentApply s r pw (lookupPrice s.providers pid) = s2 :=
        congrArg Prod.fst h
      have h2 := congrArg Prod.snd h
      simp only [RentResult.rented.injEq] at h2
      refine ⟨h2.2.symm, ?_, ?_⟩
      · rw [← h1]
        rfl
      · rw [← h1]
        simp only [rentApply]
        rw [getBalance_upsertAdd, getBalance_debit_ne _ _ _ _ (Ne.symm hrw)]
        simp

/-- Claim C3 counterexample: a rent call naming a provider id that matches
no provider row is not rejected with any error.  With the only catalog row
being NODE_A, the call for NODE_MISSING returns the success response, the
renter balance is untouched, and one transfer record with fee 0 and gross
amount 0 is appended, contradicting the claimed UnknownProvider error with
no mutation. -/
theorem unknown_provider_no_error_cex :
    (handleRent cexState3 "0xRenterC" "NODE_MISSING" "0xP").2
        = RentResult.rented "NODE_MISSING" "0xP"
    ∧ (handleRent cexState3 "0xRenterC" "NODE_MISSING" "0xP").1.jobs
        = [⟨"0xRenterC", "0xP", 0, 0⟩]
    ∧ getBalance (handleRent cexState3 "0xRenterC" "NODE_MISSING" "0xP").1.agents
        "0xRenterC" = 7
    ∧ (cexState3.providers.map (fun p => p.node_id)) = ["NODE_A"] :=
  ⟨by decide, by decide, by decide, by decide⟩

/-- Claim C3 as amended: when the provider id matches no provider row, the
ignored lookup error leaves the price at its zero value, so a renter with
positive balance receives the success response, every wallet balance is
left unchanged, and exactly one transfer record with fee 0 and gross 0 is
appended; no UnknownProvider error exists in the code. -/
theorem unknown_provider_treated_as_free
    (s : MarketState) (r pid pw : String)
    (hp : ∀ p ∈ s.providers, p.node_id ≠ pid)
    (hb : 0 < getBalance s.agents r) :
    (handleRent s r pid pw).2 = RentResult.rented pid pw
    ∧ (∀ w, getBalance (handleRent s r pid pw).1.agents w = getBalance s.agents w)
    ∧ (handleRent s r pid pw).1.jobs = s.jobs ++ [⟨r, pw, 0, 0⟩] := by
  have hprice : lookupPrice s.providers pid = 0 :=
    lookupPrice_eq_zero_of_not_found _ _ hp
  have h0 : ¬ getBalance s.agents r = 0 := by omega
  have hlt : ¬ getBalance s.agents r < lookupPrice s.providers pid := by
    rw [hprice]; omega
  unfold handleRent
  rw [if_neg h0, if_neg hlt, hprice]
  have hnet : providerNet 0 = 0 := by decide
  have hfee : feeAmount 0 = 0 := by decide
  refine ⟨rfl, ?_, ?_⟩
  · intro w
    simp only [rentApply]
    rw [getBalance_upsertAdd, getBalance_debit_zero, hnet]
    simp
  · simp [rentApply, hfee]

/-- Witness for the amended claim C3 at a concrete funded renter and an
empty catalog. -/
theorem unknown_provider_treated_as_free_witness :
    0 < getBalance witState3.agents "0xR"
    ∧ (handleRent witState3 "0xR" "NODE_Q" "0xP").2
        = RentResult.rented "NODE_Q" "0xP" :=
  ⟨by decide,
   (unknown_provider_treated_as_free witState3 "0xR" "NODE_Q" "0xP"
      (by intro p hp; simp [witState3] at hp) (by decide)).1⟩

/-- Claim C4, code bug evidence: the affordability check and the debit of
the rent handler are separate unsynchronized SQL statements.  Against a
renter whose balance 100 equals exactly one unit price, both of two
concurrent spends pass the check phase on the same observed state (the
check yields the price for each), the sequential call indeed succeeds, and
executing both write phases leaves the renter at balance -100: both calls
succeed where the claim requires exactly one success and one
InsufficientBalance rejection. -/
theorem concurrent_spend_both_succeed :
    rentCheck raceState "0xRenter" "NODE_A" = some 100
    ∧ (handleRent raceState "0xRenter" "NODE_A" "0xProv").2
        = RentResult.rented "NODE_A" "0xProv"
    ∧ getBalance (rentApply (rentApply raceState "0xRenter" "0xProv" 100)
        "0xRenter" "0xProv" 100).agents "0xRenter" = -100 :=
  ⟨by decide, by decide, by decide⟩

/-- Claim C5, code bug evidence: no mutation boundary refuses a negative
result.  The debit update is unconditional, driving a row from balance 10
to -20 with nothing refusing the write, and the interleaving of two
concurrent spends against balance 50 with unit price 50 leaves the renter
balance at -50, strictly below zero, violating the claimed invariant. -/
theorem concurrent_spend_negative_balance :
    debit [("0xW", ⟨10, false⟩)] "0xW" 30 = [("0xW", ⟨-20, false⟩)]
    ∧ rentCheck raceState2 "0xRenter" "NODE_B" = some 50
    ∧ getBalance (rentApply (rentApply raceState2 "0xRenter" "0xProviderB" 50)
        "0xRenter" "0xProviderB" 50).agents "0xRenter" = -50
    ∧ getBalance (rentApply (rentApply raceState2 "0xRenter" "0xProviderB" 50)
        "0xRenter" "0xProviderB" 50).agents "0xRenter" < 0 :=
  ⟨by decide, by decide, by decide, by decide⟩

/-- Claim C6: the fee is computed purely in integer arithmetic as the
price divided by 100 with Euclidean division (the semantics of the big
integer Div the code calls) and the provider net is the price minus the
fee.  A unit price of 1000000 yields fee 10000 and net 990000; at the
int64 maximum 9223372036854775807 the results are exact with no drift;
and for every price the fee is the floor of one hundredth of it. -/
theorem fee_computed_by_integer_floor_division :
    feeAmount 1000000 = 10000
    ∧ providerNet 1000000 = 990000
    ∧ feeAmount 9223372036854775807 = 92233720368547758
    ∧ providerNet 9223372036854775807 = 9131138316486228049
    ∧ ∀ p : Int,
        100 * feeAmount p ≤ p ∧ p < 100 * (feeAmount p + 1)
        ∧ providerNet p = p - feeAmount p := by
  refine ⟨by decide, by decide, by decide, by decide, ?_⟩
  intro p
  refine ⟨?_, ?_, rfl⟩ <;> (simp only [feeAmount]; omega)

/-- Claim C7 counterexample: with an ONLINE offer priced 0 and a renter
holding no account row (balance reads 0), the handler answers the
INSUFFICIENT CREDITS error even though the renter balance is not strictly
below the unit price, so the claimed equivalence fails at price 0. -/
theorem insufficiency_zero_price_cex :
    (handleRent cexState7 "0xR" "NODE_Z" "0xProviderZ").2
        = RentResult.insufficientCredits
    ∧ ¬ (getBalance cexState7.agents "0xR"
          < lookupPrice cexState7.providers "NODE_Z")
    ∧ cexState7.providers.map (fun p => p.status) = ["ONLINE"] :=
  ⟨by decide, by decide, by decide⟩

/-- Claim C7 as amended: whenever the price lookup for the provider id
yields at least 1, the rent handler fails with an insufficiency error
exactly when the renter balance is strictly below that price, and every
insufficiency failure leaves the state completely unchanged.  The zero
balance fast-path makes the equivalence fail only when the looked-up
price is 0. -/
theorem insufficiency_iff_of_positive_price
    (s : MarketState) (r pid pw : String)
    (hp : 1 ≤ lookupPrice s.providers pid) :
    (isInsufficient (handleRent s r pid pw).2 = true
      ↔ getBalance s.agents r < lookupPrice s.providers pid)
    ∧ (isInsufficient (handleRent s r pid pw).2 = true →
        (handleRent s r pid pw).1 = s) := by
  unfold handleRent
  by_cases h0 : getBalance s.agents r = 0
  · rw [if_pos h0]
    refine ⟨?_, fun _ => rfl⟩
    simp only [isInsufficient]
    constructor
    · intro _; omega
    · intro _; trivial
  · rw [if_neg h0]
    by_cases hlt : getBalance s.agents r < lookupPrice s.providers pid
    · rw [if_pos hlt]
      refine ⟨?_, fun _ => rfl⟩
      simp only [isInsufficient]
      constructor
      · intro _; omega
      · intro _; trivial
    · rw [if_neg hlt]
      constructor
      · simp only [isInsufficient]
        constructor
        · intro hc; exact absurd hc (by simp)
        · intro hc; omega
      · intro hc
        exact absurd hc (by simp [isInsufficient])

/-- Witness for the amended claim C7 at a renter with balance 3 and an
offer priced 10. -/
theorem insufficiency_iff_of_positive_price_witness :
    1 ≤ lookupPrice witState7.providers "NODE_P"
    ∧ (isInsufficient (handleRent witState7 "0xR" "NODE_P" "0xQ").2 = true
        ↔ getBalance witState7.agents "0xR"
            < lookupPrice witState7.providers "NODE_P") :=
  ⟨by decide,
   (insufficiency_iff_of_positive_price witState7 "0xR" "NODE_P" "0xQ"
      (by decide)).1⟩

/-- Claim C8: one cycle of the chain watcher starting from a cursor at or
below the chain head advances the cursor exactly to the head, and changes
the balance of every wallet by exactly the sum of the values of the
qualifying transactions (destination equal to the configured receiving
address, value strictly positive, derived sender equal to that wallet)
over the blocks strictly above the cursor and at most the head: blocks at
or below the cursor contribute nothing and no height in the range is
skipped. -/
theorem monitorCycle_processes_exact_range
    (owner : String) (blocks : Int → List ChainTx) (agents : Agents)
    (cursor head : Int) (h : cursor ≤ head) :
    (monitorCycle owner blocks agents cursor head).2 = head
    ∧ ∀ w, getBalance (monitorCycle owner blocks agents cursor head).1 w
        = getBalance agents w + rangeCredit owner blocks cursor head w := by
  have hs := monitorRange_spec owner blocks ((head - cursor).toNat) agents cursor
  unfold monitorCycle rangeCredit
  refine ⟨?_, fun w => hs.2 w⟩
  rw [hs.1, Int.toNat_of_nonneg (by omega)]
  omega

/-- Witness for claim C8 on a one-deposit chain from cursor 4 to head 5. -/
theorem monitorCycle_processes_exact_range_witness :
    (4 : Int) ≤ 5
    ∧ (monitorCycle "0xOwner" witBlocks [] 4 5).2 = 5
    ∧ getBalance (monitorCycle "0xOwner" witBlocks [] 4 5).1 "0xSender"
        = getBalance [] "0xSender" + rangeCredit "0xOwner" witBlocks 4 5 "0xSender" := by
  have hm := monitorCycle_processes_exact_range "0xOwner" witBlocks [] 4 5 (by decide)
  exact ⟨by decide, hm.1, hm.2 "0xSender"⟩

/-- Claim C10: the online status match is case-sensitive on the exact
string ONLINE.  Every row the provider listing returns has status ONLINE;
a row carrying the schema default lowercase online is excluded from the
listing and counted as zero active providers by the admin overview, while
a seeded uppercase row is listed and counted. -/
theorem online_status_match_case_sensitive :
    (∀ (ps : List ProviderRow) (p : ProviderRow),
        p ∈ getProviders ps → p.status = "ONLINE")
    ∧ getProviders [defaultStatusRow] = []
    ∧ handleAdminOverview ⟨[], [defaultStatusRow], []⟩ = (0, 0, 0)
    ∧ getProviders [seededStatusRow] = [seededStatusRow]
    ∧ handleAdminOverview ⟨[], [seededStatusRow], []⟩ = (0, 1, 0) := by
  refine ⟨?_, by decide, by decide, by decide, by decide⟩
  intro ps p hp
  simp only [getProviders] at hp
  have hm := List.mem_filter.mp hp
  exact eq_of_beq hm.2

/-- Witness for claim C10 instantiating the listing invariant at the
seeded uppercase row. -/
theorem online_status_match_case_sensitive_witness :
    seededStatusRow ∈ getProviders [seededStatusRow]
    ∧ seededStatusRow.status = "ONLINE" :=
  ⟨by decide,
   online_status_match_case_sensitive.1 [seededStatusRow] seededStatusRow (by decide)⟩

/-- Claim C9: the banned flag has no observable effect.  For two agents
tables whose wallet and balance projections agree while their banned
flags differ arbitrarily, balance reads agree, the rent handler returns
the same result and produces the same balance projection and the same
transfer records, the deposit credit produces the same balance
projection, the admin overview and the recent transfer listing agree,
and the rent handler never rewrites the banned flag of an existing
wallet. -/
theorem banned_flag_noninterference
    (a1 a2 : Agents) (P : List ProviderRow) (J : List JobRow)
    (r pid pw sender txh w : String) (amt : Int)
    (h : balancesOf a1 = balancesOf a2) :
    getBalance a1 w = getBalance a2 w
    ∧ (handleRent ⟨a1, P, J⟩ r pid pw).2 = (handleRent ⟨a2, P, J⟩ r pid pw).2
    ∧ balancesOf (handleRent ⟨a1, P, J⟩ r pid pw).1.agents
        = balancesOf (handleRent ⟨a2, P, J⟩ r pid pw).1.agents
    ∧ (handleRent ⟨a1, P, J⟩ r pid pw).1.jobs
        = (handleRent ⟨a2, P, J⟩ r pid pw).1.jobs
    ∧ balancesOf (credit a1 sender amt txh) = balancesOf (credit a2 sender amt txh)
    ∧ handleAdminOverview ⟨a1, P, J⟩ = handleAdminOverview ⟨a2, P, J⟩
    ∧ handleA2ATransactions ⟨a1, P, J⟩ = handleA2ATransactions ⟨a2, P, J⟩
    ∧ (getBanned a1 w ≠ none →
        getBanned (handleRent ⟨a1, P, J⟩ r pid pw).1.agents w = getBanned a1 w) := by
  have hbal : ∀ x, getBalance a1 x = getBalance a2 x :=
    getBalance_eq_of_balancesOf a1 a2 h
  have hlen : a1.length = a2.length := length_eq_of_balancesOf a1 a2 h
  have hover : handleAdminOverview ⟨a1, P, J⟩ = handleAdminOverview ⟨a2, P, J⟩ := by
    simp [handleAdminOverview, hlen]
  have hcred : balancesOf (credit a1 sender amt txh)
      = balancesOf (credit a2 sender amt txh) :=
    balancesOf_upsertAdd_congr a1 a2 h sender amt
  by_cases h0 : getBalance a1 r = 0
  · have h0b : getBalance a2 r = 0 := (hbal r) ▸ h0
    refine ⟨hbal w, ?_, ?_, ?_, hcred, hover, rfl, ?_⟩
    · simp [handleRent, h0, h0b]
    · simp only [handleRent]
      simp [h0, h0b, h]
    · simp [handleRent, h0, h0b]
    · intro _
      simp [handleRent, h0, h0b]
  · have h0b : ¬ getBalance a2 r = 0 := fun hc => h0 ((hbal r).symm ▸ hc)
    by_cases hlt : getBalance a1 r < lookupPrice P pid
    · have hltb : getBalance a2 r < lookupPrice P pid := (hbal r) ▸ hlt
      refine ⟨hbal w, ?_, ?_, ?_, hcred, hover, rfl, ?_⟩
      · simp [handleRent, h0, h0b, hlt, hltb]
      · simp only [handleRent]
        simp [h0, h0b, hlt, hltb, h]
      · simp [handleRent, h0, h0b, hlt, hltb]
      · intro _
        simp [handleRent, h0, h0b, hlt, hltb]
    · have hltb : ¬ getBalance a2 r < lookupPrice P pid :=
        fun hc => hlt ((hbal r).symm ▸ hc)
      refine ⟨hbal w, ?_, ?_, ?_, hcred, hover, rfl, ?_⟩
      · simp [handleRent, h0, h0b, hlt, hltb]
      · simp only [handleRent]
        rw [if_neg h0, if_neg h0b, if_neg hlt, if_neg hltb]
        simp only [rentApply]
        exact balancesOf_upsertAdd_congr _ _
          (balancesOf_debit_congr a1 a2 h r (lookupPrice P pid)) pw
          (providerNet (lookupPrice P pid))
      · simp [handleRent, h0, h0b, hlt, hltb, rentApply]
      · intro hbn
        simp only [handleRent]
        rw [if_neg h0, if_neg hlt]
        simp only [rentApply]
        rw [getBanned_upsertAdd_of_present, getBanned_debit]
        rw [getBanned_debit]
        exact hbn

/-- Witness for the amended claim C2 at a concrete rent call paying the
caller-chosen wallet 0xPayee. -/
theorem rent_credits_caller_supplied_wallet_witness :
    handleRent witState2 "0xR" "NODE_W" "0xPayee"
      = (wit2After, RentResult.rented "NODE_W" "0xPayee")
    ∧ getBalance wit2After.agents "0xPayee"
        = getBalance witState2.agents "0xPayee"
          + providerNet (lookupPrice witState2.providers "NODE_W") :=
  ⟨by decide,
   (rent_credits_caller_supplied_wallet witState2 "0xR" "NODE_W" "0xPayee"
      "NODE_W" "0xPayee" wit2After (by decide) (by decide)).2.2⟩

/-- Witness for claim C9 on two concrete tables differing only in the
banned flag of wallet 0xA. -/
theorem banned_flag_noninterference_witness :
    balancesOf bannedA1 = balancesOf bannedA2
    ∧ (handleRent ⟨bannedA1, [], []⟩ "0xA" "N" "0xP").2
        = (handleRent ⟨bannedA2, [], []⟩ "0xA" "N" "0xP").2
    ∧ getBalance bannedA1 "0xA" = getBalance bannedA2 "0xA" := by
  have hn := banned_flag_noninterference bannedA1 bannedA2 [] [] "0xA" "N" "0xP"
    "0xS" "0xT" "0xA" 1 (by decide)
  exact ⟨by decide, hn.2.1, hn.1⟩

end LuxCompute
